import Mathlib

/-!
Verification development for the Enterprise-AI-Assistant repository.

This file gives a shallow embedding, in Lean 4, of the pure computational
core of the repository (SQL validation utilities, output guardrails, data
masking, cost tracking, the output-guardrail section of the agent workflow,
the database manager's schema rendering, the seed-data post-processing
invariants), and proves or refutes the frozen specification claims about it.

Conventions of the embedding:
  * Python strings are modelled as Lean `String` / `List Char`; the text
    handled by the program is ASCII (SQL, configuration keys, messages), so
    `Char.toUpper`/`Char.toLower` and ASCII whitespace model Python's
    `str.upper`/`str.lower`/`str.strip` on the inputs of interest.
  * The specific regular expressions used by the source are translated into
    equivalent deterministic character scanners; backtracking behaviour of
    the Python `re` engine on those exact patterns (greedy `\s+`, `\w+`,
    the negative lookahead in the table pattern, the greedy `[^)]*` in the
    EXTRACT pattern) is reproduced, as argued in the comments next to each
    scanner.
  * Python floats are modelled as exact rationals (`ℚ`); `round(x, n)` is
    modelled as round-half-even at `n` decimal digits.
  * Fallible operations (dict key lookup, HTTP error paths) are modelled
    with `Except`.
-/

/-- Whitespace characters recognised by Python's `str.strip()` and `\s`
(ASCII range). -/
def pyWs (c : Char) : Bool :=
  c = ' ' || c = '\t' || c = '\n' || c = '\x0b' || c = '\x0c' || c = '\r'

/-- Word characters of the regex class `\w` (ASCII range). -/
def isWordChar (c : Char) : Bool :=
  c.isAlpha || c.isDigit || c = '_'

/-- The single-quote character (written via its code point). -/
def quoteChar : Char := Char.ofNat 39

/-- The semicolon character. -/
def semiChar : Char := ';'

/-- Uppercase a character list (models `str.upper()` on ASCII text). -/
def upperChars (l : List Char) : List Char := l.map Char.toUpper

/-- Lowercase a character list (models `str.lower()` on ASCII text). -/
def lowerChars (l : List Char) : List Char := l.map Char.toLower

/-- Remove trailing characters satisfying `p` (models Python `rstrip`). -/
def rstripP (p : Char → Bool) (l : List Char) : List Char :=
  (l.reverse.dropWhile p).reverse

/-- Remove leading and trailing whitespace (models Python `str.strip()`). -/
def stripWs (l : List Char) : List Char :=
  rstripP pyWs (l.dropWhile pyWs)

/-- Position after the next single quote, if any (helper for the literal
remover below). -/
def dropToQuote : List Char → Option (List Char)
  | [] => none
  | c :: rest => if c = quoteChar then some rest else dropToQuote rest

/-- Removal of single-quoted string literals: models
`re.sub(r"'[^']*'", "", s)`.  The regex removes each leftmost pair of quotes
together with the quote-free text between them; an unmatched final quote
(no closing quote anywhere after it) is left in place together with the rest
of the text.  `fuel` is initialised with the length of the list; every step
consumes at least one character, so the fuel never runs out. -/
def removeLiteralsAux : Nat → List Char → List Char
  | 0, l => l
  | _ + 1, [] => []
  | fuel + 1, c :: rest =>
    if c = quoteChar then
      match dropToQuote rest with
      | some after => removeLiteralsAux fuel after
      | none => c :: rest
    else
      c :: removeLiteralsAux fuel rest

/-- Remove all single-quoted string literals from a character list. -/
def removeLiterals (l : List Char) : List Char :=
  removeLiteralsAux l.length l

/-- No word boundary obstruction on the left: the previous character (if
any) is not a word character. -/
def boundaryBefore : Option Char → Bool
  | none => true
  | some c => !isWordChar c

/-- The list `l` starts with the word `w` followed by a word boundary
(end of input or a non-word character). -/
def wordAtHead (w l : List Char) : Bool :=
  w.isPrefixOf l &&
    (match l.drop w.length with
     | [] => true
     | c :: _ => !isWordChar c)

/-- Helper scanner for `containsWord`, threading the previously seen
character to decide the left word boundary. -/
def containsWordAux (w : List Char) : Option Char → List Char → Bool
  | _, [] => false
  | prev, c :: rest =>
    (boundaryBefore prev && wordAtHead w (c :: rest)) ||
      containsWordAux w (some c) rest

/-- Occurrence of `w` as a whole word: models `re.search(rf"\b{w}\b", s)`
for a word `w` consisting of word characters. -/
def containsWord (w l : List Char) : Bool :=
  containsWordAux w none l

/-- Occurrence of `pat` as a contiguous subsequence (substring test,
models Python's `in` on strings). -/
def hasSub (pat : List Char) : List Char → Bool
  | [] => pat.isEmpty
  | c :: rest => pat.isPrefixOf (c :: rest) || hasSub pat rest

/-- Length of the leading whitespace run. -/
def wsRunLen (l : List Char) : Nat := (l.takeWhile pyWs).length

/-- Longest leading run of word characters. -/
def wordRun (l : List Char) : List Char := l.takeWhile isWordChar

/-- Scanner for the earliest occurrence of `SELECT` with word boundaries on
both sides (`\bSELECT\b`), returning the text strictly before it.  `prev`
is the character immediately before the current position. -/
def textBeforeSelect : Option Char → List Char → Option (List Char)
  | _, [] => none
  | prev, c :: rest =>
    if boundaryBefore prev && wordAtHead "SELECT".data (c :: rest) then
      some []
    else
      (textBeforeSelect (some c) rest).map (fun t => c :: t)

/-- Scanner modelling `re.search(r"\bWITH\s+(.*?)\bSELECT\b", s, re.DOTALL)`:
at the leftmost boundary-`WITH` followed by at least one whitespace
character and eventually a boundary-`SELECT`, it captures the text between
the whitespace run and the `SELECT`.  The regex engine's greedy `\s+` must
take the maximal whitespace run (a shorter run would leave a whitespace
character where the lazy group begins, which changes nothing because `.`
matches it too — but the leftmost-shortest overall match is exactly: first
viable `WITH`, then the earliest following boundary-`SELECT`); positions
inside the whitespace cannot start `SELECT`, so taking the maximal run and
then the earliest `SELECT` reproduces the regex result. -/
def cteGroupAux : Option Char → List Char → Option (List Char)
  | _, [] => none
  | prev, c :: rest =>
    (if boundaryBefore prev && "WITH".data.isPrefixOf (c :: rest) then
      let after := (c :: rest).drop 4
      let k := wsRunLen after
      if k = 0 then none
      else textBeforeSelect (some ' ') (after.drop k)
     else none).orElse
      (fun _ => cteGroupAux (some c) rest)

/-- Text captured by the CTE block pattern, if any. -/
def cteGroup (l : List Char) : Option (List Char) :=
  cteGroupAux none l

/-- One attempt to match `(\w+)\s+AS\s*\(` at the head of the list.  The
greedy parts are forced: `\w+` must take the whole word run (backtracking
would leave a word character where `\s+` needs whitespace), `\s+` must take
the whole whitespace run (a shorter run leaves whitespace where the literal
`AS` is required), and `\s*` before `(` likewise.  Returns the captured
word together with the number of characters consumed by the match. -/
def cteMatchAtHead (l : List Char) : Option (List Char × Nat) :=
  let w := wordRun l
  if w.isEmpty then none
  else
    let afterW := l.drop w.length
    let k := wsRunLen afterW
    if k = 0 then none
    else
      let afterWs := afterW.drop k
      if "AS".data.isPrefixOf afterWs then
        let afterAs := afterWs.drop 2
        let m := wsRunLen afterAs
        match afterAs.drop m with
        | '(' :: _ => some (w, w.length + k + 2 + m + 1)
        | _ => none
      else none

/-- All captures of `re.finditer(r"(\w+)\s+AS\s*\(", s)`: repeated leftmost
non-overlapping matches, scanning restarting after each match. -/
def cteNamesAux : Nat → List Char → List (List Char)
  | 0, _ => []
  | _ + 1, [] => []
  | fuel + 1, c :: rest =>
    match cteMatchAtHead (c :: rest) with
    | some (w, consumed) => w :: cteNamesAux fuel ((c :: rest).drop consumed)
    | none => cteNamesAux fuel rest

/-- Common-table-expression names collected from a `WITH ... SELECT` block
(lowercased, as the source stores `m.group(1).lower()`). -/
def cteNames (l : List Char) : List (List Char) :=
  match cteGroup l with
  | some g => (cteNamesAux g.length g).map (·.map Char.toLower)
  | none => []

/-- One attempt to match `(?:FROM|JOIN)\s+(\w+)(?!\s*\()` at the head of
the list (the left boundary `\b` is checked by the caller).  `\s+` is
forced maximal as before.  The greedy `(\w+)` first takes the full word
run `w`; if the negative lookahead `(?!\s*\()` fails (the text after `w`
is an opening parenthesis, possibly after whitespace), the engine
backtracks one character: the character now under the lookahead is the
last character of `w` — a word character, so the lookahead succeeds — and
the capture is `w` without its last character; if `w` has only one
character there is nothing left to backtrack to and the match fails.
Returns the capture and the number of characters consumed up to the match
end (the end of the captured group). -/
def lookaheadParen (l : List Char) : Bool :=
  match l.drop (wsRunLen l) with
  | '(' :: _ => true
  | _ => false

/-- Result of one `FROM`/`JOIN` table-pattern attempt: capture and consumed
length. -/
def tableMatchAtHead (l : List Char) : Option (List Char × Nat) :=
  if "FROM".data.isPrefixOf l || "JOIN".data.isPrefixOf l then
    let after := l.drop 4
    let k := wsRunLen after
    if k = 0 then none
    else
      let w := wordRun (after.drop k)
      if w.isEmpty then none
      else if lookaheadParen ((after.drop k).drop w.length) then
        if w.length ≤ 1 then none
        else some (w.dropLast, 4 + k + (w.length - 1))
      else some (w, 4 + k + w.length)
  else none

/-- All captures of `re.findall(r"\b(?:FROM|JOIN)\s+(\w+)(?!\s*\()", s)`. -/
def tableCapturesAux : Nat → Option Char → List Char → List (List Char)
  | 0, _, _ => []
  | _ + 1, _, [] => []
  | fuel + 1, prev, c :: rest =>
    match
      (if boundaryBefore prev then tableMatchAtHead (c :: rest) else none)
    with
    | some (w, consumed) =>
      w :: tableCapturesAux fuel
        (((c :: rest).take consumed).getLast? )
        ((c :: rest).drop consumed)
    | none => tableCapturesAux fuel (some c) rest

/-- Table-name captures after `FROM`/`JOIN` (lowercased by the caller). -/
def tableCaptures (l : List Char) : List (List Char) :=
  tableCapturesAux l.length none l

/-- Last viable `FROM` inside the parenthesis span of an `EXTRACT` call:
models the greedy `[^)]*` of `r"\bEXTRACT\s*\([^)]*\bFROM\s+(\w+)"`, which
backtracks from the longest span, so the LAST boundary-`FROM` (followed by
whitespace and a word) inside the `)`-free span wins.  Returns the capture
and the offset of the match end from the start of the span. -/
def extractFromCapture (prev : Option Char) (span : List Char) (offset : Nat) :
    Option (List Char × Nat) :=
  match span with
  | [] => none
  | c :: rest =>
    let here : Option (List Char × Nat) :=
      if boundaryBefore prev && "FROM".data.isPrefixOf (c :: rest) then
        let after := (c :: rest).drop 4
        let k := wsRunLen after
        if k = 0 then none
        else
          let w := wordRun (after.drop k)
          if w.isEmpty then none
          else some (w, offset + 4 + k + w.length)
      else none
    match extractFromCapture (some c) rest (offset + 1) with
    | some r => some r
    | none => here

/-- One attempt to match the `EXTRACT` pattern at the head of the list
(left boundary checked by the caller).  `\s*` before `(` is forced maximal
as before; the `)`-free span after `(` is scanned for its last viable
`FROM`. -/
def extractMatchAtHead (l : List Char) : Option (List Char × Nat) :=
  if "EXTRACT".data.isPrefixOf l then
    let after := l.drop 7
    let k := wsRunLen after
    match after.drop k with
    | '(' :: inside =>
      let span := inside.takeWhile (fun c => c ≠ ')')
      match extractFromCapture (some '(') span 0 with
      | some (w, endOff) => some (w, 7 + k + 1 + endOff)
      | none => none
    | _ => none
  else none

/-- All captures of
`re.finditer(r"\bEXTRACT\s*\([^)]*\bFROM\s+(\w+)", s)`. -/
def extractCapturesAux : Nat → Option Char → List Char → List (List Char)
  | 0, _, _ => []
  | _ + 1, _, [] => []
  | fuel + 1, prev, c :: rest =>
    match
      (if boundaryBefore prev then extractMatchAtHead (c :: rest) else none)
    with
    | some (w, consumed) =>
      w :: extractCapturesAux fuel
        (((c :: rest).take consumed).getLast?)
        ((c :: rest).drop consumed)
    | none => extractCapturesAux fuel (some c) rest

/-- Words captured from `EXTRACT(... FROM column)` constructs. -/
def extractCaptures (l : List Char) : List (List Char) :=
  extractCapturesAux l.length none l

/-- Dangerous SQL operations blocked by `validate_sql`
(`BLOCKED_OPERATIONS` in `utils/sql_utils.py`). -/
def BLOCKED_OPERATIONS : List String :=
  ["DROP", "DELETE", "UPDATE", "INSERT", "ALTER", "CREATE", "TRUNCATE",
   "EXEC", "EXECUTE", "GRANT", "REVOKE", "ATTACH", "DETACH", "VACUUM",
   "REINDEX", "PRAGMA"]

/-- Allowed tables (`ALLOWED_TABLES` in `utils/sql_utils.py`). -/
def ALLOWED_TABLES : List String :=
  ["customers", "products", "orders", "order_items", "reviews",
   "inventory_log"]

/-- SQL keywords removed from the candidate table set
(`sql_keywords` in `validate_sql`). -/
def sqlKeywords : List String :=
  ["select", "where", "and", "or", "not", "null", "as", "on", "in", "is",
   "by", "asc", "desc", "case", "when", "then", "else", "end", "between",
   "like", "having", "union", "all", "exists", "each", "lateral"]

/-- The uppercased, stripped working copy of the query
(`sql_upper = sql.upper().strip()`). -/
def sqlUpperOf (sql : String) : List Char :=
  stripWs (upperChars sql.data)

/-- Stage 1 of `validate_sql`: the statement must start with `SELECT` or
`WITH`. -/
def startsSelectOrWith (sql : String) : Bool :=
  "SELECT".data.isPrefixOf (sqlUpperOf sql) ||
    "WITH".data.isPrefixOf (sqlUpperOf sql)

/-- Stage 2 of `validate_sql`: the first blocked operation found as a whole
word after string-literal removal, if any. -/
def blockedOpHit (sql : String) : Option String :=
  BLOCKED_OPERATIONS.find?
    (fun op => containsWord op.data (removeLiterals (sqlUpperOf sql)))

/-- Stage 3 of `validate_sql`: the original query with string literals
removed (`re.sub(r"'[^']*'", "", sql)`, note: not uppercased, not
stripped). -/
def sqlNoStringsOf (sql : String) : List Char :=
  removeLiterals sql.data

/-- Stage 3 test: `";" in sql_no_strings.rstrip(";").rstrip()`. -/
def hasStraySemicolon (l : List Char) : Bool :=
  (rstripP pyWs (rstripP (fun c => c = semiChar) l)).contains semiChar

/-- Stage 4 test: `"--" in sql_no_strings or "/*" in sql_no_strings`. -/
def hasCommentMarker (l : List Char) : Bool :=
  hasSub "--".data l || hasSub "/*".data l

/-- Stage 5 of `validate_sql`: the candidate table names referenced after
`FROM`/`JOIN`, lowercased, with CTE names, SQL keywords, and
`EXTRACT(... FROM x)` captures removed.  The working text is
`sql_clean = re.sub(r"'[^']*'", "", sql_upper)`. -/
def referencedTablesFinal (sql : String) : List (List Char) :=
  let sqlClean := removeLiterals (sqlUpperOf sql)
  let ctes := cteNames sqlClean
  let extracts := (extractCaptures sqlClean).map (·.map Char.toLower)
  (((tableCaptures sqlClean).map (·.map Char.toLower)).filter
      (fun t => ¬ (sqlKeywords.map String.data).contains t)).filter
    (fun t => ¬ ctes.contains t ∧ ¬ extracts.contains t)

/-- Names in the final candidate set that are not in the allow-list. -/
def invalidTables (sql : String) (allowedTables : List String) :
    List (List Char) :=
  (referencedTablesFinal sql).filter
    (fun t => ¬ ((allowedTables.map (fun a => lowerChars a.data)).contains t))

/-- Invalid names longer than 3 characters (`truly_invalid` in the source;
shorter names are treated as probable table aliases and tolerated). -/
def trulyInvalidTables (sql : String) (allowedTables : List String) :
    List (List Char) :=
  (invalidTables sql allowedTables).filter (fun t => 3 < t.length)

/-- Rendering of the disallowed-table list for the error message (the
source interpolates a Python set here, whose iteration order is
implementation-defined; the message content is not relied on by any
claim beyond its non-emptiness). -/
def joinCommaTables (ts : List (List Char)) : String :=
  String.intercalate ", " (ts.map (fun t => String.mk t))

/-- Embedding of `validate_sql(sql, allowed_tables)` from
`utils/sql_utils.py`, staged exactly as in the source: SELECT/WITH check,
blocked-operation scan on the literal-stripped uppercase text,
multi-statement (stray semicolon) check and comment check on the
literal-stripped original text, then table-reference allow-listing. -/
def validateSqlWith (allowedTables : List String) (sql : String) :
    Bool × String :=
  if ¬ startsSelectOrWith sql then
    (false, "Only SELECT queries are allowed")
  else
    match blockedOpHit sql with
    | some op => (false, "Blocked operation detected: " ++ op)
    | none =>
      if hasStraySemicolon (sqlNoStringsOf sql) then
        (false, "Multiple statements not allowed")
      else if hasCommentMarker (sqlNoStringsOf sql) then
        (false, "SQL comments not allowed in generated queries")
      else if ¬ (trulyInvalidTables sql allowedTables).isEmpty then
        (false, "Referenced disallowed tables: " ++
          joinCommaTables (trulyInvalidTables sql allowedTables))
      else
        (true, "")

/-- Embedding of `validate_sql(sql)` with the default allow-list
(`allowed_tables=None` in the source resolves to `ALLOWED_TABLES`). -/
def validate_sql (sql : String) : Bool × String :=
  validateSqlWith ALLOWED_TABLES sql

/-- Result record produced by each guardrail check
(`guardrail_name`, `status`, `message`, `confidence`). -/
structure GuardrailResult where
  guardrailName : String
  status : String
  message : String
  confidence : ℚ
deriving Repr, DecidableEq

/-- Keywords of the first SQL-injection output pattern
(`;\s*(?:DROP|DELETE|UPDATE|INSERT|ALTER|CREATE|TRUNCATE|EXEC)`). -/
def semiOpKeywords : List String :=
  ["DROP", "DELETE", "UPDATE", "INSERT", "ALTER", "CREATE", "TRUNCATE",
   "EXEC"]

/-- Scanner for the semicolon-then-DDL/DML pattern (applied to the
uppercased text; the source compiles the pattern with `re.IGNORECASE`). -/
def scanSemiOp : List Char → Bool
  | [] => false
  | c :: rest =>
    (c = semiChar &&
      (semiOpKeywords.any
        (fun k => k.data.isPrefixOf (rest.drop (wsRunLen rest))))) ||
      scanSemiOp rest

/-- Scanner for `UNION\s+(?:ALL\s+)?SELECT` at the head of the list. -/
def unionSelectAtHead (l : List Char) : Bool :=
  "UNION".data.isPrefixOf l &&
    (let a := l.drop 5
     let k := wsRunLen a
     decide (0 < k) &&
       (let b := a.drop k
        ("ALL".data.isPrefixOf b &&
          (let a2 := b.drop 3
           let k2 := wsRunLen a2
           decide (0 < k2) && "SELECT".data.isPrefixOf (a2.drop k2))) ||
          "SELECT".data.isPrefixOf b))

/-- Scanner for `INTO\s+(?:OUTFILE|DUMPFILE)` at the head of the list. -/
def intoFileAtHead (l : List Char) : Bool :=
  "INTO".data.isPrefixOf l &&
    (let a := l.drop 4
     let k := wsRunLen a
     decide (0 < k) &&
       ("OUTFILE".data.isPrefixOf (a.drop k) ||
         "DUMPFILE".data.isPrefixOf (a.drop k)))

/-- Scanner for `LOAD_FILE\s*\(` at the head of the list. -/
def loadFileAtHead (l : List Char) : Bool :=
  "LOAD_FILE".data.isPrefixOf l &&
    (match (l.drop 9).drop (wsRunLen (l.drop 9)) with
     | '(' :: _ => true
     | _ => false)

/-- Scanner for `(?:CHAR|CHR|NCHAR)\s*\(\s*\d+\s*\)` at the head of the
list (greedy `\d+` is forced maximal: a shorter run leaves a digit where
`\s*\)` must match). -/
def charFuncAtHead (l : List Char) : Bool :=
  (["CHAR", "CHR", "NCHAR"].any (fun k =>
    k.data.isPrefixOf l &&
      (let a := l.drop k.length
       match a.drop (wsRunLen a) with
       | '(' :: b =>
         let c := b.drop (wsRunLen b)
         let ds := c.takeWhile Char.isDigit
         decide (0 < ds.length) &&
           (match (c.drop ds.length).drop (wsRunLen (c.drop ds.length)) with
            | ')' :: _ => true
            | _ => false)
       | _ => false)))

/-- Substring search for a head-anchored scanner. -/
def scanAnywhere (p : List Char → Bool) : List Char → Bool
  | [] => p []
  | c :: rest => p (c :: rest) || scanAnywhere p rest

/-- Embedding of `SQL_INJECTION_PATTERNS` from `guardrails/patterns.py`:
true when any of the six compiled patterns matches the query (all
case-insensitive, modelled by scanning the uppercased text). -/
def sqlInjectionPatternMatch (sql : String) : Bool :=
  let u := upperChars sql.data
  scanSemiOp u ||
    scanAnywhere unionSelectAtHead u ||
    scanAnywhere intoFileAtHead u ||
    scanAnywhere loadFileAtHead u ||
    hasSub "XP_CMDSHELL".data u ||
    scanAnywhere charFuncAtHead u

/-- Modelled from the spec: `config/guardrails_config.yaml` is not part of
the provided sources.  Per §4.7 of the spec, `sql_validation.allowed_tables`
is an optional override; with no override configured the source falls back
to the module-level allow-list (`allowed_tables if allowed_tables else
None`), so the configured list is modelled as empty. -/
def cfgAllowedTables : List String := []

/-- Modelled from the spec: `sql_validation.enabled` defaults to true. -/
def cfgSqlValidationEnabled : Bool := true

/-- Modelled from the spec: `data_masking.enabled` defaults to true. -/
def cfgMaskingEnabled : Bool := true

/-- Modelled from the spec: `data_masking.sensitive_columns` is "a
configured set of column names, e.g. email/phone/ssn-like fields"
(§4.7); the claims only rely on `email` being configured sensitive and
`city` not. -/
def cfgSensitiveColumns : List String := ["email", "phone", "ssn"]

/-- Modelled from the spec: `data_masking.masking_char` defaults to `*`. -/
def cfgMaskingChar : Char := '*'

/-- Modelled from the spec: `data_masking.visible_chars` defaults to 3. -/
def cfgVisibleChars : Nat := 3

/-- Embedding of `OutputGuardrails.check_sql_safety`: delegates to
`validate_sql` with the configured allow-list (empty ⇒ module default) and
wraps the outcome in a guardrail result. -/
def checkSqlSafety (sql : String) : GuardrailResult :=
  let allowed := if cfgAllowedTables.isEmpty then ALLOWED_TABLES
                 else cfgAllowedTables
  let v := validateSqlWith allowed sql
  if ¬ v.1 then
    { guardrailName := "sql_validation", status := "blocked",
      message := "Generated SQL failed safety validation: " ++ v.2,
      confidence := 1 }
  else
    { guardrailName := "sql_validation", status := "passed",
      message := "SQL passed safety validation", confidence := 1 }

/-- Embedding of `OutputGuardrails.check_sql_injection_patterns`. -/
def checkSqlInjectionPatterns (sql : String) : GuardrailResult :=
  if sqlInjectionPatternMatch sql then
    { guardrailName := "sql_injection_check", status := "blocked",
      message := "Suspicious SQL pattern detected in generated query.",
      confidence := 95 / 100 }
  else
    { guardrailName := "sql_injection_check", status := "passed",
      message := "No SQL injection patterns detected", confidence := 1 }

/-- Embedding of `OutputGuardrails.check_all` (the `rows`, `columns` and
`response_text` arguments do not influence the result list): SQL safety
first (when SQL validation is enabled), then the injection-pattern check,
both only when `sql` is non-empty. -/
def checkAllOutput (sql : String) : List GuardrailResult :=
  (if sql ≠ "" && cfgSqlValidationEnabled then [checkSqlSafety sql] else [])
    ++ (if sql ≠ "" then [checkSqlInjectionPatterns sql] else [])

/-- Embedding of `OutputGuardrails.is_blocked`. -/
def isBlockedResults (results : List GuardrailResult) : Bool :=
  results.any (fun r => r.status = "blocked")

/-- A result row: a Python dict rendered as an association list from column
name to (stringified) value, first-binding semantics. -/
def Row : Type := List (String × String)

instance : DecidableEq Row := by
  unfold Row
  infer_instance

instance : Membership (String × String) Row := by
  unfold Row
  infer_instance

/-- Dict read (`row[col]` / `col in row`): the first binding, if present. -/
def rowGet : Row → String → Option String
  | [], _ => none
  | (k, v) :: t, c => if k = c then some v else rowGet t c

/-- Dict write on an existing key (`row[col] = v`): replaces the first
binding with that key (the source only writes keys already present). -/
def rowSet : Row → String → String → Row
  | [], _, _ => []
  | (k, v) :: t, c, newV =>
    if k = c then (k, newV) :: t else (k, v) :: rowSet t c newV

/-- Masked rendering of a value (`value[:visible_chars] + masking_char *
(len(value) - visible_chars)` when the value is longer than
`visible_chars`, else `masking_char * len(value)`). -/
def maskValue (mc : Char) (vis : Nat) (v : String) : String :=
  if vis < v.data.length then
    String.mk (v.data.take vis ++ List.replicate (v.data.length - vis) mc)
  else
    String.mk (List.replicate v.data.length mc)

/-- The inner per-row loop of `mask_sensitive_data`: for every column in
`cols`, a present, truthy (non-empty) value is replaced by its masked
rendering. -/
def maskRow (mc : Char) (vis : Nat) (cols : List String) (row : Row) : Row :=
  cols.foldl
    (fun r c =>
      match rowGet r c with
      | some v => if v ≠ "" then rowSet r c (maskValue mc vis v) else r
      | none => r)
    row

/-- Embedding of `OutputGuardrails.mask_sensitive_data(rows, columns)`,
parameterised by the masking configuration (enabled flag, sensitive
columns, masking character, visible prefix length). -/
def maskSensitiveData (enabled : Bool) (sensitive : List String) (mc : Char)
    (vis : Nat) (rows : List Row) (columns : List String) : List Row :=
  if rows.isEmpty || ¬ enabled then rows
  else
    let colsToMask := sensitive.filter (fun c => columns.contains c)
    if colsToMask.isEmpty then rows
    else rows.map (maskRow mc vis colsToMask)

/-- Result shape of `GuardrailService.check_output`. -/
structure CheckOutputResult where
  allowed : Bool
  results : List GuardrailResult
  maskedRows : List Row

/-- Embedding of `GuardrailService.check_output(sql, rows, columns)`:
runs all output guardrails, computes the blocked flag, and masks the rows
whenever both rows and columns are non-empty (truthy). -/
def checkOutput (sql : String) (rows : List Row) (columns : List String) :
    CheckOutputResult :=
  let results := checkAllOutput sql
  let maskedRows :=
    if ¬ rows.isEmpty && ¬ columns.isEmpty then
      maskSensitiveData cfgMaskingEnabled cfgSensitiveColumns cfgMaskingChar
        cfgVisibleChars rows columns
    else rows
  { allowed := ¬ isBlockedResults results, results := results,
    maskedRows := maskedRows }

/-- JSON view of a tool message's content, as read by the output-guardrail
node (`data.get("sql", "")`, `data.get("rows", [])`,
`data.get("columns", [])`). -/
structure ToolPayload where
  sql : String
  rows : List Row
  columns : List String
deriving DecidableEq

/-- Conversation messages of the agent workflow state.  A tool message
carries `parsed`: the result of attempting `json.loads` on its string
content (`none` when the content is not a JSON object); plain-text
assistant and user messages never parse as JSON objects. -/
inductive WMsg
  | human (text : String)
  | ai (text : String)
  | tool (parsed : Option ToolPayload)
deriving DecidableEq

/-- State update returned by the output-guardrail node: messages to append
(via the `add_messages` reducer) and the replacement value of the
`guardrail_results` field (a plain field, so the returned list overwrites
the old one; every return path of the node supplies it). -/
structure NodeUpdate where
  newMessages : List WMsg
  guardrailResults : List GuardrailResult
deriving DecidableEq

/-- Text of the assistant message appended when output guardrails block. -/
def blockedOutputText : String :=
  "The generated query was blocked by safety checks. Please rephrase your question."

/-- The scanning loop of `output_guardrail_node`, iterating over
`reversed(state["messages"])`: the first message whose content parses as a
JSON object with a non-empty `sql` field is checked; on a blocked result
the node returns the blocked assistant message and the accumulated
guardrail results; on a masked change it returns only the accumulated
results; otherwise (including an empty `sql` field or unparseable content)
the scan continues with the next (earlier) message, and falls through to
returning the state's existing results unchanged. -/
def outputGuardrailLoop (grs : List GuardrailResult) :
    List WMsg → NodeUpdate
  | [] => { newMessages := [], guardrailResults := grs }
  | m :: rest =>
    match m with
    | .tool (some p) =>
      if p.sql ≠ "" then
        let r := checkOutput p.sql p.rows p.columns
        if ¬ r.allowed then
          { newMessages := [.ai blockedOutputText],
            guardrailResults := grs ++ r.results }
        else if ¬ r.maskedRows.isEmpty && r.maskedRows ≠ p.rows then
          { newMessages := [], guardrailResults := grs ++ r.results }
        else outputGuardrailLoop grs rest
      else outputGuardrailLoop grs rest
    | _ => outputGuardrailLoop grs rest

/-- Embedding of `EnterpriseAssistantWorkflow.output_guardrail_node`,
applied to the state's guardrail results and message list. -/
def outputGuardrailNode (grs : List GuardrailResult) (msgs : List WMsg) :
    NodeUpdate :=
  outputGuardrailLoop grs msgs.reverse

/-- Embedding of `_check_output_guardrail`: inspects only the LAST entry of
`guardrail_results` (`results[-1]`) and reports "blocked" exactly when its
status is blocked. -/
def checkOutputGuardrailEdge (grs : List GuardrailResult) : String :=
  match grs.getLast? with
  | some r => if r.status = "blocked" then "blocked" else "allowed"
  | none => "allowed"

/-- Successor nodes of the `output_guard` node in the compiled graph. -/
inductive NextNode
  | agentNode
  | endNode
deriving DecidableEq

/-- The conditional edge out of `output_guard`
(`{"allowed": "agent", "blocked": END}` keyed by
`_check_output_guardrail`). -/
def nextAfterOutputGuard (grs : List GuardrailResult) : NextNode :=
  if checkOutputGuardrailEdge grs = "blocked" then NextNode.endNode
  else NextNode.agentNode

/-- State of the workflow as seen around the `output_guard` node. -/
structure WorkflowState where
  messages : List WMsg
  guardrailResults : List GuardrailResult
deriving DecidableEq

/-- One `output_guard` step: run the node, merge its update into the state
(messages appended through the `add_messages` reducer, `guardrail_results`
overwritten), and take the conditional edge. -/
def outputGuardStep (st : WorkflowState) : WorkflowState × NextNode :=
  let upd := outputGuardrailNode st.guardrailResults st.messages
  let st1 : WorkflowState :=
    { messages := st.messages ++ upd.newMessages,
      guardrailResults := upd.guardrailResults }
  (st1, nextAfterOutputGuard st1.guardrailResults)

/-- Round-half-even on rationals (the rounding of Python's `round()`,
modelled exactly; Python floats are modelled as exact rationals). -/
def roundHalfEven (q : ℚ) : ℤ :=
  let f := ⌊q⌋
  let r := q - (f : ℚ)
  if r < 1 / 2 then f
  else if 1 / 2 < r then f + 1
  else if f % 2 = 0 then f else f + 1

/-- Python `round(q, n)`: round-half-even at `n` decimal digits. -/
def roundDec (n : ℕ) (q : ℚ) : ℚ :=
  ((roundHalfEven (q * 10 ^ n) : ℚ)) / 10 ^ n

/-- Default input-token rate (`cost.groq_cost_per_1k_input_tokens`,
defaulting to $0.00006 per 1,000 tokens). -/
def costPer1kInput : ℚ := 6 / 100000

/-- Default output-token rate (`cost.groq_cost_per_1k_output_tokens`,
defaulting to $0.00006 per 1,000 tokens). -/
def costPer1kOutput : ℚ := 6 / 100000

/-- Embedding of `CostTracker.estimate_cost`. -/
def estimate_cost (promptTokens completionTokens : ℤ) : ℚ :=
  roundDec 8 ((promptTokens : ℚ) / 1000 * costPer1kInput +
    (completionTokens : ℚ) / 1000 * costPer1kOutput)

/-- The `token_usage` sub-dict of a LangChain `response_metadata`
(each key optional; `dict.get(key, 0)` supplies the default). -/
structure TokenUsageDict where
  promptTokens : Option ℤ
  completionTokens : Option ℤ
  totalTokens : Option ℤ

/-- Shapes of LLM response objects as far as `extract_usage` inspects
them: an object with a `response_metadata` attribute (whose `token_usage`
key may be absent), an object with a `usage_metadata` attribute (whose
token attributes may be absent; `getattr(..., 0)` supplies defaults), or
an object with neither attribute. -/
inductive LLMResponse
  | plain
  | withResponseMetadata (tokenUsage : Option TokenUsageDict)
  | withUsageMetadata (inputTokens outputTokens totalTokens : Option ℤ)

/-- The partial usage dict built by `extract_usage` (a key is `none` when
absent from the dict). -/
structure UsageDict where
  promptTokens : Option ℤ
  completionTokens : Option ℤ
  totalTokens : Option ℤ

/-- Embedding of `CostTracker.extract_usage`: both attribute branches
populate all three keys (with 0 defaults); with neither attribute the dict
stays empty.  The final fix-up re-derives `total_tokens` as the sum of the
other two whenever `usage.get("total_tokens")` is falsy (absent or 0). -/
def extract_usage (r : LLMResponse) : UsageDict :=
  let usage : UsageDict :=
    match r with
    | .withResponseMetadata tu =>
      let d := tu.getD ⟨none, none, none⟩
      ⟨some (d.promptTokens.getD 0), some (d.completionTokens.getD 0),
        some (d.totalTokens.getD 0)⟩
    | .withUsageMetadata i o t =>
      ⟨some (i.getD 0), some (o.getD 0), some (t.getD 0)⟩
    | .plain => ⟨none, none, none⟩
  if usage.totalTokens.getD 0 = 0 then
    { usage with
      totalTokens :=
        some (usage.promptTokens.getD 0 + usage.completionTokens.getD 0) }
  else usage

/-- Per-call cost record returned by `track_call`. -/
structure CostRecord where
  modelName : String
  promptTokens : ℤ
  completionTokens : ℤ
  totalTokens : ℤ
  estimatedCostUsd : ℚ
deriving DecidableEq

/-- Embedding of `CostTracker.track_call`: reads
`usage["prompt_tokens"]`, `usage["completion_tokens"]` and
`usage["total_tokens"]` by direct dict indexing — a missing key raises
`KeyError` (modelled as `Except.error`); `track_call` itself has no
exception handler. -/
def track_call (r : LLMResponse) : Except String CostRecord :=
  let usage := extract_usage r
  match usage.promptTokens, usage.completionTokens, usage.totalTokens with
  | some p, some c, some t =>
    .ok { modelName := "llama-3.1-8b-instant", promptTokens := p,
          completionTokens := c, totalTokens := t,
          estimatedCostUsd := estimate_cost p c }
  | none, _, _ => .error "KeyError: prompt_tokens"
  | some _, none, _ => .error "KeyError: completion_tokens"
  | some _, some _, none => .error "KeyError: total_tokens"

/-- Running totals accumulated by `invoke` over `cost_info`. -/
structure CostTotals where
  promptTokens : ℤ
  completionTokens : ℤ
  totalTokens : ℤ
  estimatedCostUsd : ℚ

/-- Embedding of the cost-aggregation loop of
`EnterpriseAssistantWorkflow.invoke`: field-wise summation of the tracked
per-call records (each record carries its own already-rounded
`estimated_cost_usd`). -/
def aggregateCosts (l : List CostRecord) : CostTotals :=
  l.foldl
    (fun t c =>
      { promptTokens := t.promptTokens + c.promptTokens,
        completionTokens := t.completionTokens + c.completionTokens,
        totalTokens := t.totalTokens + c.totalTokens,
        estimatedCostUsd := t.estimatedCostUsd + c.estimatedCostUsd })
    { promptTokens := 0, completionTokens := 0, totalTokens := 0,
      estimatedCostUsd := 0 }

/-- Column metadata as returned by `PRAGMA table_info`. -/
structure ColumnInfo where
  name : String
  declType : String
  notnull : Bool
  pk : Bool
deriving DecidableEq

/-- One table of the embedded database, as far as the schema endpoints
inspect it: its name, its `CREATE TABLE` DDL text (the `sql` column of
`sqlite_master`), its column metadata, its row count, and its sample rows
pre-rendered to the strings that Python's f-string produces for the
sqlite row dicts (the sqlite engine and dict rendering are external to
the embedded program). -/
structure TableEntry where
  name : String
  ddl : String
  columns : List ColumnInfo
  rowCount : Nat
  sampleRows : List String
deriving DecidableEq

/-- State of the embedded database visible to the manager's read-only
schema operations. -/
structure DBState where
  tables : List TableEntry
deriving DecidableEq

/-- Code-point (byte/ASCII) order on character lists, the collation
sqlite's `ORDER BY name` uses on these ASCII table names. -/
def charListLe : List Char → List Char → Bool
  | [], _ => true
  | _ :: _, [] => false
  | a :: as, b :: bs =>
    if a.val < b.val then true
    else if b.val < a.val then false
    else charListLe as bs

/-- Insertion into a name-sorted table list. -/
def insertByName (t : TableEntry) : List TableEntry → List TableEntry
  | [] => [t]
  | u :: rest =>
    if charListLe t.name.data u.name.data then t :: u :: rest
    else u :: insertByName t rest

/-- Name-ascending sort of the table list (`ORDER BY name` in
`sqlite_master` queries). -/
def sortTablesByName (l : List TableEntry) : List TableEntry :=
  l.foldr insertByName []

/-- Embedding of `DatabaseManager.get_schema`: the `sql` DDL of every
table, in name order, each terminated with `;`, joined by blank lines. -/
def getSchema (db : DBState) : String :=
  String.intercalate "\n\n"
    ((sortTablesByName db.tables).map (fun t => t.ddl ++ ";"))

/-- Embedding of `DatabaseManager.get_table_names`: user tables only
(excluding the `sqlite_...` catalog entries), in name order. -/
def getTableNames (db : DBState) : List String :=
  ((sortTablesByName
    (db.tables.filter
      (fun t => ¬ "sqlite_".data.isPrefixOf t.name.data))).map
    (fun t => t.name))

/-- Lookup of a table entry by name. -/
def findTable (db : DBState) (name : String) : Option TableEntry :=
  db.tables.find? (fun t => t.name = name)

/-- Rendering of one column line of the schema summary
(`  - {name} ({type}{pk}{nn})`). -/
def columnLine (c : ColumnInfo) : String :=
  "  - " ++ c.name ++ " (" ++ c.declType ++
    (if c.pk then " [PK]" else "") ++
    (if c.notnull then " NOT NULL" else "") ++ ")"

/-- Python `f"{rows}"` rendering of a list of pre-rendered row strings. -/
def pyListRender (xs : List String) : String :=
  "[" ++ String.intercalate ", " xs ++ "]"

/-- Summary section for one table: heading with row count, column lines,
optionally a sample line (first 2 of up to 3 sample rows), and a blank
separator part. -/
def tableSummaryParts (db : DBState) (name : String) : List String :=
  match findTable db name with
  | some t =>
    ["### Table: " ++ name ++ " (" ++ toString t.rowCount ++ " rows)",
     String.intercalate "\n" (t.columns.map columnLine)] ++
      (if ¬ (t.sampleRows.take 3).isEmpty then
        ["  Sample: " ++ pyListRender ((t.sampleRows.take 3).take 2)]
       else []) ++ [""]
  | none =>
    ["### Table: " ++ name ++ " (0 rows)",
     String.intercalate "\n" ([] : List String)] ++ [""]

/-- Embedding of `DatabaseManager.get_schema_summary`: the human/LLM
readable rendering ("## E-Commerce Database Schema" header, then per user
table — excluding the internal `cost_tracking` table — its column list and
up to 2 sample rows), joined with newlines. -/
def getSchemaSummary (db : DBState) : String :=
  let tables := (getTableNames db).filter (fun t => t ≠ "cost_tracking")
  String.intercalate "\n"
    ("## E-Commerce Database Schema\n" ::
      (tables.map (tableSummaryParts db)).flatten)

/-- JSON body of the `/database/schema` endpoint. -/
structure SchemaPayload where
  schema : String
deriving DecidableEq

/-- Embedding of the `GET /database/schema` endpoint of `main.py`:
503 when the database manager is not initialised, otherwise
`{"schema": db_manager.get_schema_summary()}`. -/
def databaseSchemaEndpoint (dbManager : Option DBState) :
    Except Nat SchemaPayload :=
  match dbManager with
  | none => Except.error 503
  | some db => Except.ok { schema := getSchemaSummary db }

/-- Result shape of the database manager's `execute_query` as far as the
NL-to-SQL service consumes it. -/
structure DBQueryResult where
  columns : List String
  rows : List Row
  rowCount : Nat
  executionTimeMs : ℚ
  sql : String
  error : Option String

/-- Result shape of `NLToSQLService.execute`. -/
structure NLExecResult where
  sql : String
  error : Option String
  columns : List String
  rows : List Row
  rowCount : Nat

/-- Embedding of the post-generation part of `NLToSQLService.execute`
(the SQL text produced by generation is a parameter; the database
manager's `execute_query` is abstracted as `db`).  Validation runs first;
on failure the service returns the validation-failure shape.  The second
component reports whether `execute_query` was reached. -/
def nlExecuteValidated (db : String → DBQueryResult) (sql : String) :
    NLExecResult × Bool :=
  let v := validate_sql sql
  if ¬ v.1 then
    ({ sql := sql, error := some ("SQL validation failed: " ++ v.2),
       columns := [], rows := [], rowCount := 0 }, false)
  else
    let r := db sql
    match r.error with
    | some e =>
      ({ sql := sql, error := some e, columns := [], rows := [],
         rowCount := 0 }, true)
    | none =>
      ({ sql := sql, error := none, columns := r.columns, rows := r.rows,
         rowCount := r.rowCount }, true)

/-- Python `round(x, 2)` used throughout the seed generator. -/
def round2 (q : ℚ) : ℚ := roundDec 2 q

/-- Per-category pricing parameters of the seed generator's product
catalog (`CATEGORIES` in `database/seed_data.py`): the inclusive price
range sampled uniformly, and the inclusive cost-ratio range. -/
structure SeedCategory where
  name : String
  priceLo : ℚ
  priceHi : ℚ
  ratioLo : ℚ
  ratioHi : ℚ
deriving DecidableEq

/-- The ten product categories with their declared price and cost-ratio
ranges. -/
def CATEGORIES : List SeedCategory :=
  [⟨"Electronics", 4999 / 100, 199999 / 100, 40 / 100, 60 / 100⟩,
   ⟨"Clothing", 1999 / 100, 29999 / 100, 30 / 100, 50 / 100⟩,
   ⟨"Home & Kitchen", 1499 / 100, 89999 / 100, 35 / 100, 55 / 100⟩,
   ⟨"Books", 799 / 100, 5999 / 100, 20 / 100, 40 / 100⟩,
   ⟨"Sports", 999 / 100, 49999 / 100, 30 / 100, 50 / 100⟩,
   ⟨"Beauty", 599 / 100, 19999 / 100, 15 / 100, 35 / 100⟩,
   ⟨"Toys", 999 / 100, 14999 / 100, 25 / 100, 45 / 100⟩,
   ⟨"Office", 499 / 100, 59999 / 100, 30 / 100, 50 / 100⟩,
   ⟨"Garden", 799 / 100, 39999 / 100, 30 / 100, 50 / 100⟩,
   ⟨"Automotive", 999 / 100, 49999 / 100, 35 / 100, 55 / 100⟩]

/-- Product price as stored by the generator:
`price = round(random.uniform(*price_range), 2)`, as a function of the
sampled uniform value. -/
def seededPrice (u : ℚ) : ℚ := round2 u

/-- Product cost as stored by the generator:
`cost = round(price * cost_ratio, 2)`, as a function of the stored price
and the sampled ratio. -/
def seededCost (price ratio : ℚ) : ℚ := round2 (price * ratio)

/-- One generated order item (`order_id, product_id, quantity, unit_price,
discount_percent`). -/
structure SeedOrderItem where
  orderId : Nat
  productId : Nat
  quantity : Nat
  unitPrice : ℚ
  discountPct : ℚ

/-- One generated order, as far as the recomputation invariants inspect
it. -/
structure SeedOrder where
  orderId : Nat
  customerId : Nat
  status : String

/-- Line total of one order item
(`unit_price * quantity * (1 - discount_pct / 100)`). -/
def lineTotal (it : SeedOrderItem) : ℚ :=
  it.unitPrice * (it.quantity : ℚ) * (1 - it.discountPct / 100)

/-- The `order_totals` accumulation dict of the generator, modelled as a
function from order id to accumulated total (absent keys map to 0, the
value `order_totals.get(order_id, 0)` supplies). -/
def orderTotalsDict (items : List SeedOrderItem) : Nat → ℚ :=
  items.foldl
    (fun m it => fun oid => if oid = it.orderId then m oid + lineTotal it
                            else m oid)
    (fun _ => 0)

/-- The `total_amount` stored for an order after the post-processing
`UPDATE`: orders present in the dict receive `round(total, 2)`; orders
with no items keep their initial 0 (equal to `round2` of the empty
sum). -/
def storedTotalAmount (items : List SeedOrderItem) (oid : Nat) : ℚ :=
  round2 (orderTotalsDict items oid)

/-- The `lifetime_value` stored for a customer by the post-processing
`UPDATE ... SELECT COALESCE(SUM(o.total_amount), 0) ... WHERE o.customer_id
= customers.customer_id AND o.status != 'Cancelled'`. -/
def storedLifetimeValue (orders : List SeedOrder)
    (items : List SeedOrderItem) (cid : Nat) : ℚ :=
  ((orders.filter
      (fun o => o.customerId = cid && o.status ≠ "Cancelled")).map
    (fun o => storedTotalAmount items o.orderId)).sum

/-- Claim-side reading of the multi-statement condition: after removing
string literals, a semicolon appears somewhere other than in the
statement-terminator position (the trailing run of semicolons at the very
end), i.e. some semicolon is followed by a non-semicolon character. -/
def StraySemi (l : List Char) : Prop :=
  ∃ l₁ l₂, l = l₁ ++ semiChar :: l₂ ∧ ∃ c ∈ l₂, c ≠ semiChar

/-- Dropping leading whitespace does not affect semicolon membership. -/
lemma semi_mem_dropWhile_ws (t : List Char) :
    semiChar ∈ t.dropWhile pyWs ↔ semiChar ∈ t := by
  induction t with
  | nil => simp
  | cons b t ih =>
    by_cases hb : pyWs b
    · have hbne : b ≠ semiChar := by
        rintro rfl
        simp [pyWs, semiChar] at hb
      rw [List.dropWhile_cons_of_pos hb]
      simp [ih, hbne, Ne.symm hbne]
    · rw [List.dropWhile_cons_of_neg hb]

/-- Reversed-list form of the stray-semicolon condition. -/
def RevStray (r : List Char) : Prop :=
  ∃ r₁ r₂, r = r₁ ++ semiChar :: r₂ ∧ ∃ c ∈ r₁, c ≠ semiChar

/-- Characterisation of the double `dropWhile` on the reversed text. -/
lemma rev_stray_chr (r : List Char) :
    semiChar ∈ (r.dropWhile (fun c => c = semiChar)).dropWhile pyWs ↔
      RevStray r := by
  induction r with
  | nil =>
    constructor
    · intro h; simp at h
    · rintro ⟨r₁, r₂, h, -⟩
      exact absurd h (by simp)
  | cons a t ih =>
    by_cases ha : a = semiChar
    · subst ha
      rw [List.dropWhile_cons_of_pos (by simp)]
      rw [ih]
      constructor
      · rintro ⟨r₁, r₂, h, c, hc, hcn⟩
        exact ⟨semiChar :: r₁, r₂, by simp [h], c, by simp [hc], hcn⟩
      · rintro ⟨r₁, r₂, h, c, hc, hcn⟩
        match r₁, h with
        | [], h =>
          simp at hc
        | b :: r₁, h =>
          simp only [List.cons_append, List.cons.injEq] at h
          obtain ⟨hb, h⟩ := h
          subst hb
          rcases List.mem_cons.mp hc with hceq | hc
          · exact absurd hceq hcn
          · exact ⟨r₁, r₂, h, c, hc, hcn⟩
    · have hstep : (a :: t).dropWhile (fun c => c = semiChar) = a :: t := by
        rw [List.dropWhile_cons_of_neg (by simpa using ha)]
      rw [hstep]
      have hmem : semiChar ∈ (a :: t).dropWhile pyWs ↔ semiChar ∈ t := by
        by_cases hws : pyWs a
        · rw [List.dropWhile_cons_of_pos hws, semi_mem_dropWhile_ws]
        · rw [List.dropWhile_cons_of_neg hws]
          simp [Ne.symm ha]
      rw [hmem]
      constructor
      · intro h
        obtain ⟨s, u, hsu⟩ := List.append_of_mem h
        exact ⟨a :: s, u, by simp [hsu], a, by simp, ha⟩
      · rintro ⟨r₁, r₂, h, c, hc, hcn⟩
        match r₁, h with
        | [], h =>
          simp only [List.nil_append, List.cons.injEq] at h
          exact absurd h.1 ha
        | b :: r₁, h =>
          simp only [List.cons_append, List.cons.injEq] at h
          obtain ⟨hb, h⟩ := h
          subst h
          simp

/-- The reversed-list condition transports to the claim-side condition. -/
lemma revStray_reverse_iff (l : List Char) : RevStray l.reverse ↔ StraySemi l := by
  constructor
  · rintro ⟨r₁, r₂, h, c, hc, hcn⟩
    refine ⟨r₂.reverse, r₁.reverse, ?_, c, by simpa using hc, hcn⟩
    have h2 := congrArg List.reverse h
    simpa [List.reverse_append] using h2
  · rintro ⟨l₁, l₂, h, c, hc, hcn⟩
    refine ⟨l₂.reverse, l₁.reverse, ?_, c, by simpa using hc, hcn⟩
    subst h
    simp [List.reverse_append]

/-- The multi-statement test of `validate_sql` holds exactly when, after
string-literal removal, some semicolon is followed by a later
non-semicolon character. -/
lemma hasStraySemicolon_iff (l : List Char) :
    hasStraySemicolon l = true ↔ StraySemi l := by
  have hrw : rstripP pyWs (rstripP (fun c => c = semiChar) l) =
      ((l.reverse.dropWhile (fun c => c = semiChar)).dropWhile pyWs).reverse := by
    simp [rstripP]
  rw [hasStraySemicolon, hrw, ← revStray_reverse_iff, ← rev_stray_chr]
  constructor
  · intro h
    have := List.mem_of_elem_eq_true h
    simpa using this
  · intro h
    exact List.elem_eq_true_of_mem (by simpa using h)

/-- Claim C3: `validate_sql` returns invalid for every statement whose
uppercased, stripped text does not start with `SELECT` or `WITH`; for
every statement containing a blocked-operation keyword as a whole word
after stripping single-quoted string literals; and — with message
"Multiple statements not allowed" — for every statement in which, after
removing string literals, a semicolon appears anywhere other than at the
very end (some semicolon is followed by a non-semicolon character), the
earlier checks permitting; in particular it accepts
`"SELECT COUNT(*) FROM customers"` and rejects `"DROP TABLE customers"`
and `"SELECT 1; DROP TABLE customers"`. -/
theorem c3_validate_sql_rejections :
    (∀ sql : String, ¬ startsSelectOrWith sql →
      validate_sql sql = (false, "Only SELECT queries are allowed")) ∧
    (∀ sql : String, ∀ op ∈ BLOCKED_OPERATIONS,
      containsWord op.data (removeLiterals (sqlUpperOf sql)) →
      (validate_sql sql).1 = false) ∧
    (∀ sql : String, startsSelectOrWith sql →
      (∀ op ∈ BLOCKED_OPERATIONS,
        ¬ containsWord op.data (removeLiterals (sqlUpperOf sql))) →
      StraySemi (sqlNoStringsOf sql) →
      validate_sql sql = (false, "Multiple statements not allowed")) ∧
    validate_sql "SELECT COUNT(*) FROM customers" = (true, "") ∧
    (validate_sql "DROP TABLE customers").1 = false ∧
    (validate_sql "SELECT 1; DROP TABLE customers").1 = false := by
  refine ⟨?_, ?_, ?_, by decide, by decide, by decide⟩
  · intro sql h
    simp [validate_sql, validateSqlWith, h]
  · intro sql op hop hcw
    by_cases hs : startsSelectOrWith sql
    · have hfind : (blockedOpHit sql).isSome := by
        rw [blockedOpHit, List.find?_isSome]
        exact ⟨op, hop, hcw⟩
      rw [validate_sql, validateSqlWith]
      simp only [hs, not_true_eq_false, if_false]
      obtain ⟨op2, hop2⟩ := Option.isSome_iff_exists.mp hfind
      rw [hop2]
    · simp [validate_sql, validateSqlWith, hs]
  · intro sql hs hops hstray
    have hfind : blockedOpHit sql = none := by
      rw [blockedOpHit, List.find?_eq_none]
      intro op hop
      simpa using hops op hop
    have hsemi : hasStraySemicolon (sqlNoStringsOf sql) = true :=
      (hasStraySemicolon_iff _).mpr hstray
    rw [validate_sql, validateSqlWith]
    simp only [hs, not_true_eq_false, if_false, hfind, hsemi, if_true]

/-- Concrete instance of C3's multi-statement branch obtained from the
theorem: `"SELECT 1; SELECT 2"` has a semicolon followed by more text and
is rejected with the multi-statement message. -/
theorem c3_validate_sql_rejections_witness :
    validate_sql "SELECT 1; SELECT 2" =
      (false, "Multiple statements not allowed") :=
  c3_validate_sql_rejections.2.2.1 "SELECT 1; SELECT 2" (by decide)
    (by decide)
    ⟨"SELECT 1".data, " SELECT 2".data, by decide,
      ' ', by decide, by decide⟩

/-- The lowercased allow-list used by the table check. -/
def allowedLower : List (List Char) :=
  ALLOWED_TABLES.map (fun a => lowerChars a.data)

/-- Claim C2: any referenced table name (as collected by the validator's
`FROM`/`JOIN` scan after removing CTE names, SQL keywords and
`EXTRACT(... FROM x)` captures) that is longer than 3 characters and not
in the allow-list makes `validate_sql` reject; when every disallowed
referenced name has at most 3 characters (and no earlier check fires) the
query is accepted, so a short name never by itself causes rejection; in
particular `check_sql_safety` passes `"SELECT * FROM customers LIMIT 10"`
and blocks `"SELECT * FROM secret_data"`. -/
theorem c2_disallowed_table_rejection :
    (∀ sql : String, ∀ t ∈ referencedTablesFinal sql,
      t ∉ allowedLower → 3 < t.length → (validate_sql sql).1 = false) ∧
    (∀ sql : String, startsSelectOrWith sql →
      blockedOpHit sql = none →
      ¬ hasStraySemicolon (sqlNoStringsOf sql) →
      ¬ hasCommentMarker (sqlNoStringsOf sql) →
      (∀ t ∈ referencedTablesFinal sql, t ∉ allowedLower → t.length ≤ 3) →
      validate_sql sql = (true, "")) ∧
    checkSqlSafety "SELECT * FROM customers LIMIT 10" =
      { guardrailName := "sql_validation", status := "passed",
        message := "SQL passed safety validation", confidence := 1 } ∧
    (checkSqlSafety "SELECT * FROM secret_data").status = "blocked" := by
  have hmemInv : ∀ sql t, t ∈ referencedTablesFinal sql → t ∉ allowedLower →
      t ∈ invalidTables sql ALLOWED_TABLES := by
    intro sql t hr hna
    rw [invalidTables, List.mem_filter]
    refine ⟨hr, ?_⟩
    simp only [decide_eq_true_eq]
    intro hc
    exact hna (by simpa [allowedLower] using List.mem_of_elem_eq_true hc)
  refine ⟨?_, ?_, by decide, by decide⟩
  · intro sql t hr hna hlen
    by_cases hs : startsSelectOrWith sql
    · rw [validate_sql, validateSqlWith]
      simp only [hs, not_true_eq_false, if_false]
      cases hop : blockedOpHit sql with
      | some op => rfl
      | none =>
        by_cases hsemi : hasStraySemicolon (sqlNoStringsOf sql)
        · simp [hsemi]
        · by_cases hcom : hasCommentMarker (sqlNoStringsOf sql)
          · simp [hsemi, hcom]
          · have htruly : t ∈ trulyInvalidTables sql ALLOWED_TABLES := by
              rw [trulyInvalidTables, List.mem_filter]
              exact ⟨hmemInv sql t hr hna, by simpa using hlen⟩
            have hne : ¬ (trulyInvalidTables sql ALLOWED_TABLES).isEmpty := by
              cases h : trulyInvalidTables sql ALLOWED_TABLES with
              | nil => rw [h] at htruly; simp at htruly
              | cons a l => simp
            simp [hsemi, hcom, hne]
    · simp [validate_sql, validateSqlWith, hs]
  · intro sql hs hop hsemi hcom hshort
    have htruly : trulyInvalidTables sql ALLOWED_TABLES = [] := by
      rw [trulyInvalidTables, List.filter_eq_nil_iff]
      intro t ht
      rw [invalidTables, List.mem_filter] at ht
      obtain ⟨hr, hna⟩ := ht
      have hna2 : t ∉ allowedLower := by
        simp only [decide_eq_true_eq] at hna
        intro hm
        exact hna (List.elem_eq_true_of_mem (by simpa [allowedLower] using hm))
      simpa using Nat.not_lt_of_le (hshort t hr hna2)
    rw [validate_sql, validateSqlWith]
    simp [hs, hop, hsemi, hcom, htruly]

/-- Concrete instance of C2's rejection branch obtained from the theorem:
`secret_data` is referenced, disallowed and longer than 3 characters, so
the query is rejected. -/
theorem c2_disallowed_table_rejection_witness :
    (validate_sql "SELECT * FROM secret_data").1 = false :=
  c2_disallowed_table_rejection.1 "SELECT * FROM secret_data"
    "secret_data".data (by decide) (by decide) (by decide)

/-- Whitespace characters are unchanged by uppercasing. -/
lemma toUpper_of_pyWs {c : Char} (h : pyWs c) : c.toUpper = c := by
  simp only [pyWs, Bool.or_eq_true, decide_eq_true_eq] at h
  rcases h with ((((rfl | rfl) | rfl) | rfl) | rfl) | rfl <;> decide

/-- The uppercased, stripped copy of a whitespace-only string is empty. -/
lemma sqlUpperOf_of_all_ws {s : String} (h : s.data.all pyWs) :
    sqlUpperOf s = [] := by
  have hall : ∀ c ∈ s.data, pyWs c := fun c hc => List.all_eq_true.mp h c hc
  have hmap : upperChars s.data = s.data := by
    rw [upperChars]
    calc s.data.map Char.toUpper = s.data.map id :=
          List.map_congr_left (fun c hc => toUpper_of_pyWs (hall c hc))
      _ = s.data := List.map_id s.data
  rw [sqlUpperOf, hmap, stripWs]
  have hdrop : s.data.dropWhile pyWs = [] :=
    List.dropWhile_eq_nil_iff.mpr (fun c hc => hall c hc)
  rw [hdrop]
  rfl

/-- Claim C9: `validate_sql` returns `(False, "Only SELECT queries are
allowed")` for the empty string and every whitespace-only string, and
consequently `NLToSQLService.execute` on such an extracted SQL string
returns the validation-failure result without ever calling the database
manager's `execute_query` (the second component of the embedded executor
reports whether `execute_query` was reached). -/
theorem c9_empty_sql_never_reaches_db :
    ∀ s : String, s.data.all pyWs →
      validate_sql s = (false, "Only SELECT queries are allowed") ∧
      ∀ db : String → DBQueryResult,
        (nlExecuteValidated db s).2 = false ∧
        (nlExecuteValidated db s).1.error =
          some "SQL validation failed: Only SELECT queries are allowed" ∧
        (nlExecuteValidated db s).1.rows = [] := by
  intro s hws
  have hstart : startsSelectOrWith s = false := by
    rw [startsSelectOrWith, sqlUpperOf_of_all_ws hws]
    rfl
  have hval : validate_sql s = (false, "Only SELECT queries are allowed") := by
    simp [validate_sql, validateSqlWith, hstart]
  refine ⟨hval, fun db => ?_⟩
  rw [nlExecuteValidated, hval]
  exact ⟨rfl, rfl, rfl⟩

/-- Concrete instance of C9 obtained from the theorem, at the empty string
and a concrete stand-in for `execute_query`. -/
theorem c9_empty_sql_never_reaches_db_witness :
    validate_sql "" = (false, "Only SELECT queries are allowed") ∧
    (nlExecuteValidated
      (fun q => { columns := [], rows := [], rowCount := 0,
                  executionTimeMs := 0, sql := q, error := none }) "").2 =
      false :=
  ⟨(c9_empty_sql_never_reaches_db "" (by decide)).1,
   ((c9_empty_sql_never_reaches_db "" (by decide)).2 _).1⟩

/-- The agent state, at the moment the `output_guard` node runs, for a
tool-call pipeline whose SQL referenced a disallowed table: the most
recent tool message carries
`{"sql": "SELECT * FROM secret_data", "rows": [], "columns": [...]}`. -/
def c1FailingMessages : List WMsg :=
  [WMsg.human "Show me everything in secret_data",
   WMsg.ai "",
   WMsg.tool (some { sql := "SELECT * FROM secret_data", rows := [],
                     columns := ["customer_id"] })]

/-- The full failing workflow state for claim C1 (no guardrail results
accumulated yet when `output_guard` runs on the tool result). -/
def c1FailingState : WorkflowState :=
  { messages := c1FailingMessages, guardrailResults := [] }

/-- Claim C1 evaluated on the failing input: the output-guardrail node
does append the assistant message saying the query was blocked by safety
checks, and a blocked-status entry (the `sql_validation` result) is
recorded — but `check_output` appends the `sql_injection_check` result
(status passed) after it, and `_check_output_guardrail` inspects only
`guardrail_results[-1]`, so the conditional edge evaluates to "allowed"
and the run transitions back to the `agent` node instead of ending. -/
theorem c1_blocked_output_returns_to_agent :
    (outputGuardStep c1FailingState).1.messages.getLast? =
      some (WMsg.ai blockedOutputText) ∧
    (outputGuardStep c1FailingState).1.guardrailResults.any
        (fun r => r.status = "blocked") = true ∧
    ((outputGuardStep c1FailingState).1.guardrailResults.getLast?).map
        (fun r => (r.guardrailName, r.status)) =
      some ("sql_injection_check", "passed") ∧
    (outputGuardStep c1FailingState).2 = NextNode.agentNode := by
  decide

/-- Claim C4 evaluated on the failing input: for a response object with
neither a `response_metadata` nor a `usage_metadata` attribute,
`extract_usage` returns a dict containing only the recomputed
`total_tokens` key, and `track_call`'s subsequent `usage["prompt_tokens"]`
lookup raises `KeyError` instead of returning a zero-usage record.  The
positive parts hold: with `response_metadata` present but empty the record
is all-zero, and `total_tokens` is recomputed as the sum of the other two
whenever the provider does not supply it. -/
theorem c4_track_call_keyerror_on_bare_response :
    track_call LLMResponse.plain = Except.error "KeyError: prompt_tokens" ∧
    (extract_usage LLMResponse.plain).promptTokens = none ∧
    (extract_usage LLMResponse.plain).totalTokens = some 0 ∧
    track_call (LLMResponse.withResponseMetadata none) =
      Except.ok { modelName := "llama-3.1-8b-instant", promptTokens := 0,
                  completionTokens := 0, totalTokens := 0,
                  estimatedCostUsd := 0 } ∧
    (∀ i o : ℤ,
      (extract_usage (LLMResponse.withUsageMetadata (some i) (some o)
        none)).totalTokens = some (i + o)) := by
  have h4 : estimate_cost 0 0 = 0 := by
    norm_num [estimate_cost, roundDec, roundHalfEven]
  refine ⟨rfl, rfl, rfl, ?_, ?_⟩
  · simp [track_call, extract_usage, h4]
  · intro i o
    simp [extract_usage]

/-- A response carrying usage metadata with the given token counts. -/
def c7Response (p c : ℤ) : LLMResponse :=
  LLMResponse.withUsageMetadata (some p) (some c) (some (p + c))

/-- The cost record `track_call` produces for those token counts. -/
def c7Record (p c : ℤ) : CostRecord :=
  { modelName := "llama-3.1-8b-instant", promptTokens := p,
    completionTokens := c, totalTokens := p + c,
    estimatedCostUsd := estimate_cost p c }

/-- Claim C7: `estimate_cost` is `round(p/1000 * input_rate + c/1000 *
output_rate, 8)` at the default $0.00006-per-1k rates; `track_call`
stores the per-call 8-decimal-rounded estimate in each record; and the
aggregation loop of `invoke` sums those already-rounded per-call values —
for token counts (100,50), (200,20), (10,5) the aggregate equals the sum
of the three independently rounded estimates, numerically $0.0000231. -/
theorem c7_cost_estimate_and_aggregation :
    (∀ p c : ℤ, estimate_cost p c =
      roundDec 8 ((p : ℚ) / 1000 * costPer1kInput +
        (c : ℚ) / 1000 * costPer1kOutput)) ∧
    (∀ p c : ℤ, track_call (c7Response p c) = Except.ok (c7Record p c)) ∧
    (aggregateCosts [c7Record 100 50, c7Record 200 20,
        c7Record 10 5]).estimatedCostUsd =
      estimate_cost 100 50 + estimate_cost 200 20 + estimate_cost 10 5 ∧
    (aggregateCosts [c7Record 100 50, c7Record 200 20,
        c7Record 10 5]).estimatedCostUsd = 231 / 10 ^ 7 := by
  refine ⟨fun p c => rfl, ?_, ?_, ?_⟩
  · intro p c
    by_cases h : p + c = 0 <;>
      simp [track_call, extract_usage, c7Response, c7Record, h]
  · simp [aggregateCosts, c7Record]
  · have e1 : estimate_cost 100 50 = 9 / 10 ^ 6 := by
      norm_num [estimate_cost, roundDec, roundHalfEven, costPer1kInput,
        costPer1kOutput]
    have e2 : estimate_cost 200 20 = 132 / 10 ^ 7 := by
      norm_num [estimate_cost, roundDec, roundHalfEven, costPer1kInput,
        costPer1kOutput]
    have e3 : estimate_cost 10 5 = 9 / 10 ^ 7 := by
      norm_num [estimate_cost, roundDec, roundHalfEven, costPer1kInput,
        costPer1kOutput]
    simp [aggregateCosts, c7Record, e1, e2, e3]
    norm_num

/-- The dict-accumulation of line totals equals the per-order sum of line
totals, for any accumulator start. -/
lemma orderTotalsDict_foldl_eq (items : List SeedOrderItem) :
    ∀ (m : Nat → ℚ) (oid : Nat),
      (items.foldl
        (fun m it => fun o => if o = it.orderId then m o + lineTotal it
                              else m o) m) oid =
        m oid + ((items.filter (fun it => it.orderId = oid)).map
          lineTotal).sum := by
  induction items with
  | nil => intro m oid; simp
  | cons it rest ih =>
    intro m oid
    rw [List.foldl_cons, ih]
    by_cases h : it.orderId = oid
    · have hd : (decide (it.orderId = oid)) = true := by simp [h]
      rw [List.filter_cons, hd, if_pos h.symm]
      simp only [if_true, List.map_cons, List.sum_cons]
      ring
    · have hd : (decide (it.orderId = oid)) = false := by simp [h]
      rw [List.filter_cons, hd, if_neg (fun he => h he.symm)]
      simp

/-- The `order_totals` dict value for an order is the sum of that order's
line totals. -/
lemma orderTotalsDict_eq (items : List SeedOrderItem) (oid : Nat) :
    orderTotalsDict items oid =
      ((items.filter (fun it => it.orderId = oid)).map lineTotal).sum := by
  rw [orderTotalsDict, orderTotalsDict_foldl_eq]
  simp

/-- Claim C8: after seeding, every order's stored `total_amount` equals
the 2-decimal-rounded sum over its order items of
`unit_price * quantity * (1 - discount_percent/100)`, and every customer's
stored `lifetime_value` equals the sum of those rounded totals over the
customer's non-Cancelled orders.  The generator's random draws are
abstracted: the invariants hold for every possible list of generated
items and orders. -/
theorem c8_seed_recomputation_invariants :
    (∀ (items : List SeedOrderItem) (oid : Nat),
      storedTotalAmount items oid =
        round2 (((items.filter (fun it => it.orderId = oid)).map
          lineTotal).sum)) ∧
    (∀ (items : List SeedOrderItem) (orders : List SeedOrder) (cid : Nat),
      storedLifetimeValue orders items cid =
        ((orders.filter
            (fun o => o.customerId = cid && o.status ≠ "Cancelled")).map
          (fun o => round2 (((items.filter
            (fun it => it.orderId = o.orderId)).map lineTotal).sum))).sum) := by
  have h1 : ∀ (items : List SeedOrderItem) (oid : Nat),
      storedTotalAmount items oid =
        round2 (((items.filter (fun it => it.orderId = oid)).map
          lineTotal).sum) := by
    intro items oid
    rw [storedTotalAmount, orderTotalsDict_eq]
  refine ⟨h1, ?_⟩
  intro items orders cid
  rw [storedLifetimeValue]
  exact congrArg List.sum
    (List.map_congr_left (fun o _ => h1 items o.orderId))

/-- Round-half-even lands within one half of the argument. -/
lemma roundHalfEven_bounds (q : ℚ) :
    q - 1 / 2 ≤ (roundHalfEven q : ℚ) ∧ (roundHalfEven q : ℚ) ≤ q + 1 / 2 := by
  have hfl : (⌊q⌋ : ℚ) ≤ q := Int.floor_le q
  have hfu : q < (⌊q⌋ : ℚ) + 1 := Int.lt_floor_add_one q
  simp only [roundHalfEven]
  split_ifs with h1 h2 h3 <;> constructor <;> push_cast <;> linarith

/-- Two-decimal rounding moves a value by at most 1/200 downward. -/
lemma round2_le (x : ℚ) : round2 x ≤ x + 1 / 200 := by
  have h := (roundHalfEven_bounds (x * 10 ^ 2)).2
  rw [round2, roundDec]
  rw [div_le_iff₀ (by norm_num : (0 : ℚ) < 10 ^ 2)]
  nlinarith

/-- Two-decimal rounding moves a value by at most 1/200 upward. -/
lemma le_round2 (x : ℚ) : x - 1 / 200 ≤ round2 x := by
  have h := (roundHalfEven_bounds (x * 10 ^ 2)).1
  rw [round2, roundDec]
  rw [le_div_iff₀ (by norm_num : (0 : ℚ) < 10 ^ 2)]
  nlinarith

/-- Every category's price floor is at least $4.99, its cost-ratio ceiling
at most 0.6, and its cost-ratio floor non-negative. -/
lemma categories_bounds : ∀ cat ∈ CATEGORIES,
    (499 / 100 : ℚ) ≤ cat.priceLo ∧ cat.ratioHi ≤ 3 / 5 ∧
      0 ≤ cat.ratioLo := by
  intro cat hcat
  fin_cases hcat <;> refine ⟨by norm_num, by norm_num, by norm_num⟩

/-- Claim C10: every product the seed generator inserts has cost strictly
below price: with price = round2 of a uniform draw within the category's
price range (≥ $4.99 in every category) and cost = round2(price × ratio)
for a ratio within the category's cost-ratio range (≤ 0.6 in every
category), two-decimal rounding can never raise the cost up to the
price. -/
theorem c10_seeded_cost_lt_price :
    ∀ cat ∈ CATEGORIES, ∀ u ratio : ℚ,
      cat.priceLo ≤ u → u ≤ cat.priceHi →
      cat.ratioLo ≤ ratio → ratio ≤ cat.ratioHi →
      seededCost (seededPrice u) ratio < seededPrice u := by
  intro cat hcat u ratio hu1 _ hr1 hr2
  obtain ⟨hlo, hhi, hrlo⟩ := categories_bounds cat hcat
  have hprice : (997 / 200 : ℚ) ≤ seededPrice u := by
    have := le_round2 u
    rw [seededPrice]
    linarith
  have hrat0 : (0 : ℚ) ≤ ratio := le_trans hrlo hr1
  have hrat6 : ratio ≤ 3 / 5 := le_trans hr2 hhi
  have hmul : seededPrice u * ratio ≤ seededPrice u * (3 / 5) :=
    mul_le_mul_of_nonneg_left hrat6 (by linarith)
  have hcost : seededCost (seededPrice u) ratio ≤
      seededPrice u * ratio + 1 / 200 := by
    rw [seededCost]
    exact round2_le _
  linarith

/-- Concrete instance of C10 obtained from the theorem: an Electronics
product drawn at $100 with cost ratio 0.5. -/
theorem c10_seeded_cost_lt_price_witness :
    seededCost (seededPrice 100) (1 / 2) < seededPrice 100 :=
  c10_seeded_cost_lt_price
    ⟨"Electronics", 4999 / 100, 199999 / 100, 40 / 100, 60 / 100⟩
    (by unfold CATEGORIES; exact List.mem_cons_self _ _) 100 (1 / 2)
    (by norm_num) (by norm_num) (by norm_num) (by norm_num)

/-- Setting a column rewrites its first binding. -/
lemma rowGet_rowSet_same (r : Row) (c : String) (w : String) (v : String)
    (h : rowGet r c = some v) : rowGet (rowSet r c w) c = some w := by
  induction r with
  | nil => simp [rowGet] at h
  | cons kv t ih =>
    obtain ⟨k, x⟩ := kv
    by_cases hk : k = c
    · simp [rowGet, rowSet, hk]
    · rw [rowGet, rowSet] at *
      rw [if_neg hk] at h ⊢
      rw [rowGet, if_neg hk]
      exact ih h

/-- Setting one column leaves the others unchanged. -/
lemma rowGet_rowSet_ne (r : Row) (c c' : String) (w : String)
    (h : c' ≠ c) : rowGet (rowSet r c w) c' = rowGet r c' := by
  induction r with
  | nil => simp [rowGet, rowSet]
  | cons kv t ih =>
    obtain ⟨k, x⟩ := kv
    by_cases hk : k = c
    · subst hk
      rw [rowSet, if_pos rfl, rowGet, rowGet, if_neg (fun he => h he.symm),
        if_neg (fun he => h he.symm)]
    · rw [rowSet, if_neg hk, rowGet, rowGet]
      by_cases hk2 : k = c'
      · rw [if_pos hk2, if_pos hk2]
      · rw [if_neg hk2, if_neg hk2]
        exact ih

/-- Columns outside the masked set are untouched by the per-row loop. -/
lemma maskRow_not_mem (mc : Char) (vis : Nat) (cols : List String)
    (col : String) (hcol : col ∉ cols) :
    ∀ row : Row, rowGet (maskRow mc vis cols row) col = rowGet row col := by
  induction cols with
  | nil => intro row; rfl
  | cons c cs ih =>
    intro row
    have hne : col ≠ c := fun he => hcol (he ▸ List.mem_cons_self c cs)
    have hnm : col ∉ cs := fun hm => hcol (List.mem_cons_of_mem c hm)
    rw [maskRow, List.foldl_cons]
    rw [show ∀ r2, List.foldl _ r2 cs = maskRow mc vis cs r2 from fun r2 => rfl]
    cases hg : rowGet row c with
    | none => exact ih hnm row
    | some v =>
      have hred : (match some v with
          | some v => if v ≠ "" then rowSet row c (maskValue mc vis v)
                      else row
          | none => row) =
          if v ≠ "" then rowSet row c (maskValue mc vis v) else row := rfl
      rw [hred]
      by_cases hv : v ≠ ""
      · rw [if_pos hv, ih hnm]
        exact rowGet_rowSet_ne row c col (maskValue mc vis v) hne
      · rw [if_neg hv]
        exact ih hnm row

/-- A masked column of the per-row loop carries the masked value (empty
values and absent columns pass through). -/
lemma maskRow_mem (mc : Char) (vis : Nat) (cols : List String)
    (col : String) (v : String) (hnd : cols.Nodup) (hcol : col ∈ cols) :
    ∀ row : Row, rowGet row col = some v → v ≠ "" →
      rowGet (maskRow mc vis cols row) col = some (maskValue mc vis v) := by
  induction cols with
  | nil => simp at hcol
  | cons c cs ih =>
    intro row hv hvne
    rw [maskRow, List.foldl_cons]
    rw [show ∀ r2, List.foldl _ r2 cs = maskRow mc vis cs r2 from fun r2 => rfl]
    rcases List.mem_cons.mp hcol with hceq | hcm
    · subst hceq
      rw [hv]
      have hred : (match some v with
          | some v => if v ≠ "" then rowSet row col (maskValue mc vis v)
                      else row
          | none => row) =
          if v ≠ "" then rowSet row col (maskValue mc vis v) else row := rfl
      rw [hred, if_pos hvne]
      have hnm : col ∉ cs := (List.nodup_cons.mp hnd).1
      rw [maskRow_not_mem mc vis cs col hnm]
      exact rowGet_rowSet_same row col (maskValue mc vis v) v hv
    · have hne : c ≠ col := by
        rintro rfl
        exact (List.nodup_cons.mp hnd).1 hcm
      have hnd2 : cs.Nodup := (List.nodup_cons.mp hnd).2
      cases hg : rowGet row c with
      | none => exact ih hnd2 hcm row hv hvne
      | some w =>
        have hred : (match some w with
            | some v => if v ≠ "" then rowSet row c (maskValue mc vis v)
                        else row
            | none => row) =
            if w ≠ "" then rowSet row c (maskValue mc vis w) else row := rfl
        rw [hred]
        by_cases hw : w ≠ ""
        · rw [if_pos hw]
          refine ih hnd2 hcm _ ?_ hvne
          rw [rowGet_rowSet_ne row c col (maskValue mc vis w) (Ne.symm hne)]
          exact hv
        · rw [if_neg hw]
          exact ih hnd2 hcm row hv hvne

/-- Masking preserves the character length of a value. -/
lemma maskValue_length (mc : Char) (vis : Nat) (v : String) :
    (maskValue mc vis v).data.length = v.data.length := by
  rw [maskValue]
  by_cases h : vis < v.data.length
  · rw [if_pos h]
    simp only [String.data]
    rw [List.length_append, List.length_take, List.length_replicate]
    omega
  · rw [if_neg h]
    simp only [String.data]
    rw [List.length_replicate]

/-- Claim C5: for non-empty row lists, `mask_sensitive_data` replaces, in
each row and for each configured sensitive column present in the column
list, the non-empty value's characters after the first `visible_chars`
with the masking character (keeping the original length, and fully
masking values of length ≤ `visible_chars`), while every non-sensitive
column's value is unchanged.  The sensitive-column set is modelled as a
duplicate-free list (Python set semantics). -/
theorem c5_mask_sensitive_data_spec
    (sens : List String) (mc : Char) (vis : Nat)
    (rows : List Row) (columns : List String)
    (hnd : sens.Nodup) (hne : rows ≠ [])
    (i : Nat) (row orow : Row) (col : String) (v : String)
    (hr : rows[i]? = some row)
    (ho : (maskSensitiveData true sens mc vis rows columns)[i]? = some orow)
    (hv : rowGet row col = some v) :
    (col ∈ sens → col ∈ columns → v ≠ "" →
      rowGet orow col = some (maskValue mc vis v) ∧
      (maskValue mc vis v).data.length = v.data.length ∧
      (vis < v.data.length →
        maskValue mc vis v =
          String.mk (v.data.take vis ++
            List.replicate (v.data.length - vis) mc)) ∧
      (v.data.length ≤ vis →
        maskValue mc vis v = String.mk (List.replicate v.data.length mc))) ∧
    (col ∉ sens → rowGet orow col = some v) := by
  have hrowne : ¬ rows.isEmpty := by
    cases rows with
    | nil => exact absurd rfl hne
    | cons a l => simp
  have hmvshape : (vis < v.data.length →
      maskValue mc vis v =
        String.mk (v.data.take vis ++
          List.replicate (v.data.length - vis) mc)) ∧
      (v.data.length ≤ vis →
        maskValue mc vis v = String.mk (List.replicate v.data.length mc)) := by
    constructor
    · intro h
      rw [maskValue, if_pos h]
    · intro h
      rw [maskValue, if_neg (by omega)]
  rw [maskSensitiveData, if_neg (by simp [hrowne])] at ho
  by_cases hcm : (sens.filter (fun c => columns.contains c)).isEmpty
  · rw [if_pos hcm] at ho
    have horow : orow = row := by
      rw [hr] at ho
      exact (Option.some.injEq _ _).mp ho.symm
    subst horow
    constructor
    · intro hs hc _
      exfalso
      have hmem : col ∈ sens.filter (fun c => columns.contains c) := by
        rw [List.mem_filter]
        exact ⟨hs, List.elem_eq_true_of_mem hc⟩
      cases hfe : sens.filter (fun c => columns.contains c) with
      | nil => rw [hfe] at hmem; simp at hmem
      | cons a l => rw [hfe] at hcm; simp at hcm
    · intro _
      exact hv
  · rw [if_neg hcm] at ho
    rw [List.getElem?_map, hr] at ho
    have horow : orow = maskRow mc vis
        (sens.filter (fun c => columns.contains c)) row := by
      have hsome : some (maskRow mc vis
          (sens.filter (fun c => columns.contains c)) row) = some orow := ho
      exact ((Option.some.injEq _ _).mp hsome).symm
    subst horow
    constructor
    · intro hs hc hvne
      have hmem : col ∈ sens.filter (fun c => columns.contains c) := by
        rw [List.mem_filter]
        exact ⟨hs, List.elem_eq_true_of_mem hc⟩
      refine ⟨maskRow_mem mc vis _ col v (hnd.filter _) hmem row hv hvne,
        maskValue_length mc vis v, hmvshape⟩
    · intro hns
      have hnm : col ∉ sens.filter (fun c => columns.contains c) :=
        fun hm => hns (List.mem_of_mem_filter hm)
      rw [maskRow_not_mem mc vis _ col hnm row]
      exact hv

/-- Concrete instance of C5 obtained from the theorem, at the spec's
example row with the modelled masking configuration (`email` sensitive
with a 3-character visible prefix, `city` not sensitive):
`john@example.com` becomes `joh` followed by 13 masking characters and
`NYC` is unchanged. -/
theorem c5_mask_sensitive_data_spec_witness :
    (rowGet [("name", "John"), ("email", "joh*************"),
        ("city", "NYC")] "email" =
      some (maskValue cfgMaskingChar cfgVisibleChars "john@example.com") ∧
      (maskValue cfgMaskingChar cfgVisibleChars
        "john@example.com").data.length = "john@example.com".data.length ∧
      (cfgVisibleChars < "john@example.com".data.length →
        maskValue cfgMaskingChar cfgVisibleChars "john@example.com" =
          String.mk ("john@example.com".data.take cfgVisibleChars ++
            List.replicate ("john@example.com".data.length -
              cfgVisibleChars) cfgMaskingChar)) ∧
      ("john@example.com".data.length ≤ cfgVisibleChars →
        maskValue cfgMaskingChar cfgVisibleChars "john@example.com" =
          String.mk (List.replicate "john@example.com".data.length
            cfgMaskingChar))) ∧
    rowGet [("name", "John"), ("email", "joh*************"),
        ("city", "NYC")] "city" = some "NYC" :=
  ⟨(c5_mask_sensitive_data_spec cfgSensitiveColumns cfgMaskingChar
      cfgVisibleChars
      [[("name", "John"), ("email", "john@example.com"), ("city", "NYC")]]
      ["name", "email", "city"] (by decide) (by decide) 0
      [("name", "John"), ("email", "john@example.com"), ("city", "NYC")]
      [("name", "John"), ("email", "joh*************"), ("city", "NYC")]
      "email" "john@example.com" (by decide) (by decide) (by decide)).1
      (by decide) (by decide) (by decide),
   (c5_mask_sensitive_data_spec cfgSensitiveColumns cfgMaskingChar
      cfgVisibleChars
      [[("name", "John"), ("email", "john@example.com"), ("city", "NYC")]]
      ["name", "email", "city"] (by decide) (by decide) 0
      [("name", "John"), ("email", "john@example.com"), ("city", "NYC")]
      [("name", "John"), ("email", "joh*************"), ("city", "NYC")]
      "city" "NYC" (by decide) (by decide) (by decide)).2 (by decide)⟩

/-- A concrete database state: one user table with its DDL, column
metadata and no sample rows. -/
def c6ExampleDB : DBState :=
  { tables :=
      [{ name := "customers",
         ddl := "CREATE TABLE customers (customer_id INTEGER PRIMARY KEY, email TEXT NOT NULL)",
         columns :=
           [{ name := "customer_id", declType := "INTEGER",
              notnull := false, pk := true },
            { name := "email", declType := "TEXT",
              notnull := true, pk := false }],
         rowCount := 0, sampleRows := [] }] }

set_option maxRecDepth 8000 in
/-- Claim C6 as stated is false: at the concrete database state, the
`GET /database/schema` endpoint does not return the literal DDL text of
`get_schema` in its `schema` field (it returns `get_schema_summary`,
whose rendering differs). -/
theorem c6_schema_endpoint_counterexample :
    databaseSchemaEndpoint (some c6ExampleDB) ≠
      Except.ok { schema := getSchema c6ExampleDB } := by
  intro h
  have hval : databaseSchemaEndpoint (some c6ExampleDB) =
      Except.ok { schema := getSchemaSummary c6ExampleDB } := rfl
  rw [hval] at h
  injection h with h3
  have h4 := congrArg SchemaPayload.schema h3
  exact absurd h4 (by decide)

set_option maxRecDepth 8000 in
/-- Claim C6 (amended): the endpoint returns, in its `schema` field, the
database manager's `get_schema_summary()` rendering (the human/LLM
readable summary opening with the "## E-Commerce Database Schema"
header), not the concatenated `CREATE TABLE ...;` DDL of `get_schema`;
the endpoint answers 503 when the manager is uninitialised.  At the
concrete state, `get_schema` is indeed the `;`-terminated DDL text. -/
theorem c6_schema_endpoint_returns_summary :
    (∀ db : DBState, databaseSchemaEndpoint (some db) =
      Except.ok { schema := getSchemaSummary db }) ∧
    databaseSchemaEndpoint none = Except.error 503 ∧
    getSchema c6ExampleDB =
      "CREATE TABLE customers (customer_id INTEGER PRIMARY KEY, email TEXT NOT NULL);" ∧
    "## E-Commerce Database Schema".data.isPrefixOf
      (getSchemaSummary c6ExampleDB).data = true := by
  exact ⟨fun db => rfl, rfl, by decide, by decide⟩
